import Mathlib

/-!
Verification development for the two-phase guardian-resolving batch profile
importer of the ID-Database repository.

The embedding below is a shallow model of the handler `app.post('/people')`
in `src/api/index.ts` (the Supabase implementation), together with the
bio-generation helper of `src/worker/index.ts` where a claim cites it.
External collaborators (bio generator, roster lookup, image upload, the
random number generator, and store failures) are modelled as oracles in an
`Env` record: each oracle value is what the corresponding external call
would return for the given submission.  The relational store is a `Store`
record with an id counter and a row list; its bulk insert assigns
consecutive ids in submission order, which is exactly the order-preservation
assumption the spec states for the store collaborator.
-/

namespace IdDatabase

/-- String value of `PersonCategory.STAFF` in `src/api/index.ts`.  At runtime
the `category` field is a plain string, and the importer only ever compares
it with the `Student` value. -/
def PersonCategory.STAFF : String := "Staff"

/-- String value of `PersonCategory.STUDENT` in `src/api/index.ts`. -/
def PersonCategory.STUDENT : String := "Student"

/-- String value of `PersonCategory.PARENT` in `src/api/index.ts`. -/
def PersonCategory.PARENT : String := "Parent/Guardian"

/-- The `NewPersonData` request payload type of `src/api/index.ts`.  The
`category` field is a `String` because at runtime the handler receives
arbitrary JSON strings and only tests `p.category === PersonCategory.STUDENT`;
`class` is renamed `class_` (Lean keyword). -/
structure NewPersonData where
  tempId : String
  category : String
  firstName : String
  lastName : String
  image : String
  role : Option String := none
  class_ : Option String := none
  guardianIds : Option (List Nat) := none
  guardianTempIds : Option (List String) := none
deriving DecidableEq, Repr

/-- The column values of one row handed to the store insert (everything of a
persisted row except the store-assigned `id`).  Non-student inserts carry
`role` and no `guardianIds`; student inserts carry `guardianIds` and no
`role`, mirroring the two insert-object shapes in `src/api/index.ts`. -/
structure RowPayload where
  category : String
  firstName : String
  lastName : String
  image : String
  role : Option String
  class_ : Option String
  guardianIds : Option (List Nat)
  bio : String
  googleSheetId : String
deriving DecidableEq, Repr

/-- A persisted `people` row: a `RowPayload` plus the store-assigned id. -/
structure PersonRow where
  id : Nat
  category : String
  firstName : String
  lastName : String
  image : String
  role : Option String
  class_ : Option String
  guardianIds : Option (List Nat)
  bio : String
  googleSheetId : String
deriving DecidableEq, Repr

/-- Attach a store-assigned id to a row payload. -/
def toRow (p : RowPayload) (id : Nat) : PersonRow :=
  { id := id, category := p.category, firstName := p.firstName,
    lastName := p.lastName, image := p.image, role := p.role,
    class_ := p.class_, guardianIds := p.guardianIds, bio := p.bio,
    googleSheetId := p.googleSheetId }

/-- Forget the store-assigned id of a persisted row (its column values). -/
def PersonRow.eraseId (r : PersonRow) : RowPayload :=
  { category := r.category, firstName := r.firstName, lastName := r.lastName,
    image := r.image, role := r.role, class_ := r.class_,
    guardianIds := r.guardianIds, bio := r.bio,
    googleSheetId := r.googleSheetId }

/-- The relational store: a serial id counter and the persisted rows. -/
structure Store where
  nextId : Nat
  rows : List PersonRow
deriving DecidableEq, Repr

/-- Store well-formedness: every persisted row's id is below the counter. -/
def Store.WF (s : Store) : Prop := ∀ r ∈ s.rows, r.id < s.nextId

/-- The rows created by a bulk insert of `ps` when the store counter is
`base`: consecutive ids in submission order. -/
def insertedRows (base : Nat) (ps : List RowPayload) : List PersonRow :=
  ps.enum.map (fun e => toRow e.2 (base + e.1))

/-- Bulk insert: appends the new rows and returns the assigned ids in the
same order as the submitted payloads (the store-order assumption of the
spec, which Supabase insert-with-select provides). -/
def Store.insert (s : Store) (ps : List RowPayload) : Store × List Nat :=
  ({ nextId := s.nextId + ps.length, rows := s.rows ++ insertedRows s.nextId ps },
   (List.range ps.length).map (fun i => s.nextId + i))

/-- Oracles for the external collaborators of one batch-import call.
`bioResult p` is what the Gemini call returns for submission `p` (`none`
models a thrown error or timeout); `rosterResult p` is what
`getSheetIdForStudent` returns (`Except.error` models a thrown error,
`Except.ok none` a clean not-found); `rand p` is the `Math.random()` draw
used for the synthesized `GS-` token; `upload` is the image-storage result;
the two flags say whether the phase-1 / phase-2 store insert errors. -/
structure Env where
  bioResult : NewPersonData → Option String
  rosterResult : NewPersonData → Except Unit (Option String)
  rand : NewPersonData → ℚ
  upload : String → String
  phase1Fails : Bool
  phase2Fails : Bool

/-- The fixed fallback bio string of both implementations. -/
def fallbackBio : String := "A valued member of our community."

/-- `generateBio` of `src/api/index.ts`: on a thrown error or timeout
(`none`) return the fallback; otherwise trim the returned text and fall
back when the trimmed text is empty (`bioText || fallbackBio`). -/
def generateBio (res : Option String) : String :=
  match res with
  | none => fallbackBio
  | some t => if t.trim = "" then fallbackBio else t.trim

/-- `generateBio` of `src/worker/index.ts`: the fallback is substituted only
in the `catch` branch; a returned text is trimmed and used verbatim, even
when it is empty. -/
def generateBioWorker : Option String → String
  | none => fallbackBio
  | some t => t.trim

/-- The number part of a synthesized roster token:
`Math.floor(10000 + Math.random() * 90000)` for a draw `r`. -/
def gsNum (r : ℚ) : Nat := (Int.floor ((10000 : ℚ) + r * 90000)).toNat

/-- The synthesized roster token itself: the `GS-` string followed by the
decimal digits of `gsNum r`. -/
def synthRosterId (r : ℚ) : String := "GS-" ++ Nat.repr (gsNum r)

/-- The `googleSheetId` computed for a student in `src/api/index.ts`: a
found roster lookup is used verbatim; a clean not-found (`?? ...`) and a
thrown lookup error (`catch`) both fall back to the synthesized token. -/
def studentSheetId (res : Except Unit (Option String)) (r : ℚ) : String :=
  match res with
  | Except.ok (some s) => s
  | Except.ok none => synthRosterId r
  | Except.error _ => synthRosterId r

/-- JavaScript `[...new Set(l)]`: deduplication keeping the first occurrence
of each element, in insertion order. -/
def jsSetDedup (l : List Nat) : List Nat :=
  l.foldl (fun acc x => if x ∈ acc then acc else acc ++ [x]) []

/-- Lookup in the `tempIdToNewIdMap` JavaScript object: the last assignment
to a key wins. -/
def mapLookup : List (String × Nat) → String → Option Nat
  | [], _ => none
  | e :: rest, k =>
    match mapLookup rest k with
    | some v => some v
    | none => if e.1 = k then some e.2 else none

/-- The map-building loop `inserted.forEach((row, index) => ...)`: the i-th
non-student payload's tempId is assigned the i-th returned id. -/
def buildMap (ns : List NewPersonData) (ids : List Nat) : List (String × Nat) :=
  (ns.zip ids).map (fun e => (e.1.tempId, e.2))

/-- JavaScript `.filter(Boolean)` over an array of numbers-or-undefined:
keeps exactly the truthy values, so `undefined` (a missed map lookup) and
the number `0` are dropped. -/
def jsFilterBoolean (l : List (Option Nat)) : List Nat :=
  l.filterMap (fun o =>
    match o with
    | some i => if i = 0 then none else some i
    | none => none)

/-- Guardian resolution for one student submission, from
`src/api/index.ts`:
`newGuardianIds = student.guardianTempIds?.map(t => map[t]).filter(Boolean) || []`
then `allGuardianIds = [...new Set([...(student.guardianIds || []), ...newGuardianIds])]`. -/
def resolveGuardianIds (m : List (String × Nat)) (s : NewPersonData) : List Nat :=
  let newGuardianIds := jsFilterBoolean ((s.guardianTempIds.getD []).map (mapLookup m))
  jsSetDedup (s.guardianIds.getD [] ++ newGuardianIds)

/-- The insert object built for one non-student (guardian-capable)
submission in phase 1 of `src/api/index.ts`. -/
def nonStudentRow (env : Env) (p : NewPersonData) : RowPayload :=
  { category := p.category, firstName := p.firstName, lastName := p.lastName,
    image := env.upload p.image, role := p.role, class_ := p.class_,
    guardianIds := none, bio := generateBio (env.bioResult p),
    googleSheetId := synthRosterId (env.rand p) }

/-- The insert object built for one student submission in phase 2 of
`src/api/index.ts`, given the phase-1 `tempIdToNewIdMap`. -/
def studentRow (env : Env) (m : List (String × Nat)) (s : NewPersonData) : RowPayload :=
  { category := s.category, firstName := s.firstName, lastName := s.lastName,
    image := env.upload s.image, role := none, class_ := s.class_,
    guardianIds := some (resolveGuardianIds m s),
    bio := generateBio (env.bioResult s),
    googleSheetId := studentSheetId (env.rosterResult s) (env.rand s) }

/-- The partition loop `peopleToAdd.forEach(p => ...)`: students are pushed
onto one list and everything else onto the other, in input order.  Returns
`(studentPayloads, nonStudentPayloads)`. -/
def partitionPayloads (l : List NewPersonData) : List NewPersonData × List NewPersonData :=
  l.foldl
    (fun acc p =>
      if p.category = PersonCategory.STUDENT then (acc.1 ++ [p], acc.2)
      else (acc.1, acc.2 ++ [p]))
    ([], [])

/-- The request body as the handler sees it after `c.req.json()`: either a
JSON array of `NewPersonData` or some non-array JSON value. -/
inductive ReqBody where
  | arr (l : List NewPersonData)
  | notArray
deriving DecidableEq

/-- The observable outcome of one call of the handler, together with the
store state it leaves behind: HTTP 400 (invalid payload), HTTP 500 (a store
insert threw), or HTTP 201 (success). -/
inductive ImportResult where
  | invalidPayload (store : Store)
  | failure (store : Store)
  | success (store : Store)
deriving DecidableEq, Repr

/-- The batch-import handler `app.post('/people')` of `src/api/index.ts`:
reject a non-array or empty body; partition; phase 1 inserts the
guardian-capable rows and builds the tempId map; phase 2 resolves each
student's guardians against that map and inserts the student rows; a store
error in either phase aborts the call with no compensating rollback. -/
def postPeople (env : Env) (store : Store) (body : ReqBody) : ImportResult :=
  match body with
  | ReqBody.notArray => ImportResult.invalidPayload store
  | ReqBody.arr peopleToAdd =>
    if peopleToAdd.length = 0 then ImportResult.invalidPayload store
    else
      let parts := partitionPayloads peopleToAdd
      let studentPayloads := parts.1
      let nonStudentPayloads := parts.2
      let phase1 : Option (Store × List (String × Nat)) :=
        if 0 < nonStudentPayloads.length then
          if env.phase1Fails then none
          else
            let r := store.insert (nonStudentPayloads.map (nonStudentRow env))
            some (r.1, buildMap nonStudentPayloads r.2)
        else some (store, [])
      match phase1 with
      | none => ImportResult.failure store
      | some st1m =>
        let store1 := st1m.1
        let tempIdToNewIdMap := st1m.2
        if 0 < studentPayloads.length then
          if env.phase2Fails then ImportResult.failure store1
          else
            ImportResult.success
              (store1.insert (studentPayloads.map (studentRow env tempIdToNewIdMap))).1
        else ImportResult.success store1

/-- The store after a (successful) phase 1 on the non-student partition. -/
def phase1Store (env : Env) (store : Store) (ns : List NewPersonData) : Store :=
  if 0 < ns.length then (store.insert (ns.map (nonStudentRow env))).1 else store

/-- The `tempIdToNewIdMap` after a (successful) phase 1. -/
def phase1Map (env : Env) (store : Store) (ns : List NewPersonData) : List (String × Nat) :=
  if 0 < ns.length then buildMap ns (store.insert (ns.map (nonStudentRow env))).2 else []

/-- The store after both phases succeed on batch `b`. -/
def afterBoth (env : Env) (store : Store) (b : List NewPersonData) : Store :=
  let ss := (partitionPayloads b).1
  let ns := (partitionPayloads b).2
  let store1 := phase1Store env store ns
  let m := phase1Map env store ns
  if 0 < ss.length then (store1.insert (ss.map (studentRow env m))).1 else store1

/-- An oracle environment where every external call degrades: the bio call
throws, the roster lookup cleanly misses, the random draw is 0, image upload
returns its input, and both store inserts succeed. -/
def sampleEnv : Env :=
  { bioResult := fun _ => none, rosterResult := fun _ => Except.ok none,
    rand := fun _ => 0, upload := fun s => s,
    phase1Fails := false, phase2Fails := false }

/-- A guardian-capable sample submission. -/
def sampleGuardian : NewPersonData :=
  { tempId := "a", category := PersonCategory.PARENT, firstName := "Marcus",
    lastName := "Cole", image := "img1", role := some "Parent" }

/-- A second guardian-capable sample submission. -/
def sampleGuardian2 : NewPersonData :=
  { tempId := "b", category := PersonCategory.PARENT, firstName := "Olivia",
    lastName := "Chen", image := "img2", role := some "Parent" }

/-- A student sample submission referencing both sample guardians by tempId. -/
def sampleStudent : NewPersonData :=
  { tempId := "c", category := PersonCategory.STUDENT, firstName := "Leo",
    lastName := "Cole", image := "img3", class_ := some "Grade 5",
    guardianTempIds := some ["a", "b"] }

/-- A student sample submission referencing only the first sample guardian. -/
def sampleStudentOneRef : NewPersonData :=
  { tempId := "c", category := PersonCategory.STUDENT, firstName := "Leo",
    lastName := "Cole", image := "img3", class_ := some "Grade 5",
    guardianTempIds := some ["a"] }

/-- An empty store whose first assigned id will be 1. -/
def sampleStore : Store := { nextId := 1, rows := [] }

/-- A submission with an unrecognized category string (not one of the three
enum values): the handler has no validation branch for it. -/
def oddCategory : NewPersonData :=
  { tempId := "z", category := "Wizard", firstName := "Zo", lastName := "Om",
    image := "img4", role := some "Wizard" }

/-- The store after a first successful submission of the two-element sample
batch (one guardian, one student referencing it by tempId a). -/
def resubmitStore1 : Store :=
  afterBoth sampleEnv sampleStore [sampleGuardian, sampleStudentOneRef]

/-- The store after resubmitting the identical two-element batch. -/
def resubmitStore2 : Store :=
  afterBoth sampleEnv resubmitStore1 [sampleGuardian, sampleStudentOneRef]

/-- `sampleEnv` with a failing phase-1 store insert. -/
def sampleEnvP1Fail : Env := { sampleEnv with phase1Fails := true }

/-- `sampleEnv` with a failing phase-2 store insert. -/
def sampleEnvP2Fail : Env := { sampleEnv with phase2Fails := true }

/-! ### Helper lemmas -/

theorem partitionPayloads_foldl (l : List NewPersonData)
    (acc : List NewPersonData × List NewPersonData) :
    l.foldl
      (fun acc p =>
        if p.category = PersonCategory.STUDENT then (acc.1 ++ [p], acc.2)
        else (acc.1, acc.2 ++ [p])) acc
      = (acc.1 ++ l.filter (fun p => p.category = PersonCategory.STUDENT),
         acc.2 ++ l.filter (fun p => ¬(p.category = PersonCategory.STUDENT))) := by
  induction l generalizing acc with
  | nil => simp
  | cons p l ih =>
    by_cases h : p.category = PersonCategory.STUDENT
    · simp [List.foldl_cons, List.filter_cons, h, ih]
    · simp [List.foldl_cons, List.filter_cons, h, ih]

theorem partitionPayloads_eq (l : List NewPersonData) :
    partitionPayloads l
      = (l.filter (fun p => p.category = PersonCategory.STUDENT),
         l.filter (fun p => ¬(p.category = PersonCategory.STUDENT))) := by
  simpa [partitionPayloads] using partitionPayloads_foldl l ([], [])

theorem jsSetDedup_foldl_mem (l : List Nat) (acc : List Nat) (x : Nat) :
    (x ∈ l.foldl (fun acc x => if x ∈ acc then acc else acc ++ [x]) acc)
      ↔ x ∈ acc ∨ x ∈ l := by
  induction l generalizing acc with
  | nil => simp
  | cons y l ih =>
    by_cases h : y ∈ acc
    · rw [List.foldl_cons, if_pos h, ih]
      constructor
      · rintro (hx | hx)
        · exact Or.inl hx
        · exact Or.inr (List.mem_cons_of_mem _ hx)
      · rintro (hx | hx)
        · exact Or.inl hx
        · rcases List.mem_cons.mp hx with hx | hx
          · exact Or.inl (hx ▸ h)
          · exact Or.inr hx
    · rw [List.foldl_cons, if_neg h, ih]
      simp [List.mem_cons, List.mem_append, or_assoc]

theorem jsSetDedup_foldl_nodup (l : List Nat) :
    ∀ acc : List Nat, acc.Nodup →
      (l.foldl (fun acc x => if x ∈ acc then acc else acc ++ [x]) acc).Nodup := by
  induction l with
  | nil => intro acc hacc; simpa using hacc
  | cons y l ih =>
    intro acc hacc
    by_cases h : y ∈ acc
    · rw [List.foldl_cons, if_pos h]; exact ih acc hacc
    · rw [List.foldl_cons, if_neg h]
      refine ih (acc ++ [y]) ?_
      rw [List.nodup_append]
      exact ⟨hacc, List.nodup_singleton y, by simpa [List.disjoint_singleton] using h⟩

theorem mem_jsSetDedup (l : List Nat) (x : Nat) : x ∈ jsSetDedup l ↔ x ∈ l := by
  simpa [jsSetDedup] using jsSetDedup_foldl_mem l [] x

theorem jsSetDedup_nodup (l : List Nat) : (jsSetDedup l).Nodup :=
  jsSetDedup_foldl_nodup l [] (by simp)

theorem jsSetDedup_foldl_eraseDups (l : List Nat) (acc : List Nat) :
    l.foldl (fun acc x => if x ∈ acc then acc else acc ++ [x]) acc
      = List.eraseDups.loop l acc.reverse := by
  induction l generalizing acc with
  | nil => simp [List.eraseDups.loop]
  | cons y l ih =>
    rw [List.foldl_cons]
    by_cases h : y ∈ acc
    · have he : acc.reverse.elem y = true := by
        rw [List.elem_iff]; simpa using h
      rw [if_pos h, List.eraseDups.loop, he, ih]
    · have he : acc.reverse.elem y = false := by
        rw [Bool.eq_false_iff]
        intro hc
        exact h (by simpa using List.elem_iff.mp hc)
      rw [if_neg h, List.eraseDups.loop, he, ih (acc ++ [y])]
      simp

theorem jsSetDedup_eq_eraseDups (l : List Nat) : jsSetDedup l = l.eraseDups := by
  simpa [jsSetDedup, List.eraseDups] using jsSetDedup_foldl_eraseDups l []

theorem mapLookup_eq_none_of_not_mem_keys {m : List (String × Nat)} {k : String}
    (h : k ∉ m.map Prod.fst) : mapLookup m k = none := by
  induction m with
  | nil => rfl
  | cons e rest ih =>
    simp only [List.map_cons, List.mem_cons, not_or] at h
    rw [mapLookup, ih h.2]
    exact if_neg (fun hh => h.1 hh.symm)

theorem mapLookup_mem {m : List (String × Nat)} {k : String} {v : Nat}
    (h : mapLookup m k = some v) : (k, v) ∈ m := by
  induction m with
  | nil => simp [mapLookup] at h
  | cons e rest ih =>
    rw [mapLookup] at h
    cases hr : mapLookup rest k with
    | some w =>
      rw [hr] at h
      cases h
      exact List.mem_cons_of_mem _ (ih hr)
    | none =>
      rw [hr] at h
      by_cases he : e.1 = k
      · rw [if_pos he] at h
        cases h
        obtain ⟨e1, e2⟩ := e
        subst he
        exact List.mem_cons_self _ _
      · rw [if_neg he] at h
        cases h

theorem mapLookup_of_mem_nodup {m : List (String × Nat)} {k : String} {v : Nat}
    (hnd : (m.map Prod.fst).Nodup) (h : (k, v) ∈ m) : mapLookup m k = some v := by
  induction m with
  | nil => cases h
  | cons e rest ih =>
    rw [List.map_cons, List.nodup_cons] at hnd
    rcases List.mem_cons.mp h with he | hrest
    · have hk : e.1 = k := by rw [← he]
      have hnone : mapLookup rest k = none :=
        mapLookup_eq_none_of_not_mem_keys (hk ▸ hnd.1)
      rw [mapLookup, hnone, if_pos hk]
      rw [← he]
    · rw [mapLookup, ih hnd.2 hrest]

theorem buildMap_keys {ns : List NewPersonData} {ids : List Nat}
    (h : ns.length = ids.length) :
    (buildMap ns ids).map Prod.fst = ns.map (fun p => p.tempId) := by
  have hfst : (ns.zip ids).map Prod.fst = ns := List.map_fst_zip ns ids (le_of_eq h)
  calc (buildMap ns ids).map Prod.fst
      = (ns.zip ids).map (fun e => e.1.tempId) := by
        simp only [buildMap, List.map_map]; rfl
    _ = ((ns.zip ids).map Prod.fst).map (fun p => p.tempId) := by
        rw [List.map_map]; rfl
    _ = ns.map (fun p => p.tempId) := by rw [hfst]

theorem buildMap_mem_snd {ns : List NewPersonData} {ids : List Nat} {k : String} {v : Nat}
    (h : (k, v) ∈ buildMap ns ids) : v ∈ ids := by
  rcases List.mem_map.mp h with ⟨e, hmem, heq⟩
  have hv : e.2 = v := congrArg Prod.snd heq
  obtain ⟨e1, e2⟩ := e
  exact hv ▸ (List.of_mem_zip hmem).2

theorem buildMap_get_mem {ns : List NewPersonData} {ids : List Nat}
    {i : Nat} (hi : i < ns.length) (hi2 : i < ids.length) :
    ((ns.get ⟨i, hi⟩).tempId, ids.get ⟨i, hi2⟩) ∈ buildMap ns ids := by
  have hz : i < (ns.zip ids).length := by
    rw [List.length_zip]; exact lt_min hi hi2
  have hget : (ns.zip ids).get ⟨i, hz⟩ = (ns.get ⟨i, hi⟩, ids.get ⟨i, hi2⟩) := by
    simp [List.get_eq_getElem, List.getElem_zip]
  have hmem : (ns.get ⟨i, hi⟩, ids.get ⟨i, hi2⟩) ∈ ns.zip ids :=
    hget ▸ List.get_mem _ _ _
  exact List.mem_map_of_mem (fun e => (e.1.tempId, e.2)) hmem

theorem buildMap_lookup {ns : List NewPersonData} {ids : List Nat}
    (hlen : ns.length = ids.length)
    (hnd : (ns.map (fun p => p.tempId)).Nodup)
    {i : Nat} (hi : i < ns.length) (hi2 : i < ids.length) :
    mapLookup (buildMap ns ids) ((ns.get ⟨i, hi⟩).tempId) = some (ids.get ⟨i, hi2⟩) :=
  mapLookup_of_mem_nodup ((buildMap_keys hlen).symm ▸ hnd) (buildMap_get_mem hi hi2)

theorem insertedRows_length (base : Nat) (ps : List RowPayload) :
    (insertedRows base ps).length = ps.length := by
  simp [insertedRows]

theorem insertedRows_getElem? (base : Nat) (ps : List RowPayload) (i : Nat) :
    (insertedRows base ps)[i]? = ps[i]?.map (fun p => toRow p (base + i)) := by
  simp [insertedRows, List.getElem?_enum]
  cases ps[i]? <;> simp

theorem mem_insertedRows {base : Nat} {ps : List RowPayload} {r : PersonRow}
    (h : r ∈ insertedRows base ps) :
    base ≤ r.id ∧ r.id < base + ps.length ∧ r.eraseId ∈ ps := by
  rcases List.mem_map.mp h with ⟨e, hmem, heq⟩
  obtain ⟨i, p⟩ := e
  have hget : ps[i]? = some p := List.mk_mem_enum_iff_getElem?.mp hmem
  have hi : i < ps.length := (List.getElem?_eq_some.mp hget).1
  have hp : p ∈ ps := List.getElem?_mem hget
  refine ⟨?_, ?_, ?_⟩
  · rw [← heq]; exact Nat.le_add_right _ _
  · rw [← heq]
    exact Nat.add_lt_add_left hi base
  · rw [← heq]
    exact hp

theorem insertedRows_map_eraseId (base : Nat) (ps : List RowPayload) :
    (insertedRows base ps).map PersonRow.eraseId = ps := by
  simp [insertedRows, List.map_map]
  have : (PersonRow.eraseId ∘ fun e : Nat × RowPayload => toRow e.2 (base + e.1))
      = Prod.snd := by
    funext e; rfl
  rw [this, List.enum_map_snd]

theorem Store.insert_rows (s : Store) (ps : List RowPayload) :
    (s.insert ps).1.rows = s.rows ++ insertedRows s.nextId ps := rfl

theorem Store.insert_nextId (s : Store) (ps : List RowPayload) :
    (s.insert ps).1.nextId = s.nextId + ps.length := rfl

theorem Store.insert_ids (s : Store) (ps : List RowPayload) :
    (s.insert ps).2 = (List.range ps.length).map (fun i => s.nextId + i) := rfl

theorem Store.insert_WF {s : Store} (ps : List RowPayload) (h : s.WF) :
    (s.insert ps).1.WF := by
  intro r hr
  rw [Store.insert_rows] at hr
  rw [Store.insert_nextId]
  rcases List.mem_append.mp hr with hold | hnew
  · exact lt_of_lt_of_le (h r hold) (Nat.le_add_right _ _)
  · exact (mem_insertedRows hnew).2.1

theorem postPeople_eq_success (env : Env) (store : Store) (b : List NewPersonData)
    (h1 : env.phase1Fails = false) (h2 : env.phase2Fails = false)
    (hb : b.length ≠ 0) :
    postPeople env store (ReqBody.arr b) = ImportResult.success (afterBoth env store b) := by
  by_cases hns : 0 < (partitionPayloads b).2.length
  · by_cases hss : 0 < (partitionPayloads b).1.length
    · simp [postPeople, afterBoth, phase1Store, phase1Map, hb, hns, hss, h1, h2]
    · simp [postPeople, afterBoth, phase1Store, phase1Map, hb, hns, hss, h1, h2]
  · by_cases hss : 0 < (partitionPayloads b).1.length
    · simp [postPeople, afterBoth, phase1Store, phase1Map, hb, hns, hss, h1, h2]
    · simp [postPeople, afterBoth, phase1Store, phase1Map, hb, hns, hss, h1, h2]

theorem afterBoth_rows (env : Env) (store : Store) (b : List NewPersonData) :
    (afterBoth env store b).rows
      = store.rows
        ++ insertedRows store.nextId
             ((partitionPayloads b).2.map (nonStudentRow env))
        ++ insertedRows (store.nextId + (partitionPayloads b).2.length)
             ((partitionPayloads b).1.map
               (studentRow env (phase1Map env store (partitionPayloads b).2))) := by
  unfold afterBoth phase1Store
  by_cases hns : 0 < (partitionPayloads b).2.length
  · by_cases hss : 0 < (partitionPayloads b).1.length
    · simp [hns, hss, Store.insert_rows, Store.insert_nextId, List.append_assoc]
    · have hempty : (partitionPayloads b).1 = [] := by
        rw [← List.length_eq_zero]; omega
      simp [hns, hss, hempty, Store.insert_rows, insertedRows, List.append_assoc]
  · have hempty : (partitionPayloads b).2 = [] := by
      rw [← List.length_eq_zero]; omega
    by_cases hss : 0 < (partitionPayloads b).1.length
    · simp [hns, hss, hempty, Store.insert_rows, insertedRows]
    · have hempty1 : (partitionPayloads b).1 = [] := by
        rw [← List.length_eq_zero]; omega
      simp [hns, hss, hempty, hempty1, insertedRows]

theorem afterBoth_nextId (env : Env) (store : Store) (b : List NewPersonData) :
    (afterBoth env store b).nextId
      = store.nextId + (partitionPayloads b).2.length
          + (partitionPayloads b).1.length := by
  unfold afterBoth phase1Store
  by_cases hns : 0 < (partitionPayloads b).2.length
  · by_cases hss : 0 < (partitionPayloads b).1.length
    · simp [hns, hss, Store.insert_nextId]
    · have hempty : (partitionPayloads b).1.length = 0 := by omega
      simp [hns, hss, Store.insert_nextId, hempty]
  · have hempty : (partitionPayloads b).2.length = 0 := by omega
    by_cases hss : 0 < (partitionPayloads b).1.length
    · simp [hns, hss, Store.insert_nextId, hempty]
    · have hempty1 : (partitionPayloads b).1.length = 0 := by omega
      simp [hns, hss, hempty, hempty1]

theorem afterBoth_WF (env : Env) (store : Store) (b : List NewPersonData)
    (h : store.WF) : (afterBoth env store b).WF := by
  intro r hr
  rw [afterBoth_rows] at hr
  rw [afterBoth_nextId]
  rcases List.mem_append.mp hr with hr | hnew2
  · rcases List.mem_append.mp hr with hold | hnew1
    · have := h r hold
      omega
    · have := (mem_insertedRows hnew1).2.1
      rw [List.length_map] at this
      omega
  · have := (mem_insertedRows hnew2).2.1
    rw [List.length_map] at this
    omega

theorem phase1Map_lookup_ge {env : Env} {store : Store} {ns : List NewPersonData}
    {t : String} {i : Nat}
    (h : mapLookup (phase1Map env store ns) t = some i) : store.nextId ≤ i := by
  unfold phase1Map at h
  by_cases hns : 0 < ns.length
  · rw [if_pos hns] at h
    have hmem := mapLookup_mem h
    have hid : i ∈ (store.insert (ns.map (nonStudentRow env))).2 :=
      buildMap_mem_snd hmem
    rw [Store.insert_ids] at hid
    rcases List.mem_map.mp hid with ⟨j, _, hj⟩
    omega
  · rw [if_neg hns] at h
    cases h

theorem phase1Map_lookup_pos {env : Env} {store : Store} {ns : List NewPersonData}
    {t : String} {i : Nat} (hpos : 0 < store.nextId)
    (h : mapLookup (phase1Map env store ns) t = some i) : i ≠ 0 := by
  have := phase1Map_lookup_ge h
  omega

theorem phase1Map_keys (env : Env) (store : Store) (ns : List NewPersonData)
    (hns : 0 < ns.length) :
    (phase1Map env store ns).map Prod.fst = ns.map (fun p => p.tempId) := by
  unfold phase1Map
  rw [if_pos hns]
  refine buildMap_keys ?_
  rw [Store.insert_ids]
  simp

theorem phase1Map_lookup_at (env : Env) (store : Store) (ns : List NewPersonData)
    (hnd : (ns.map (fun p => p.tempId)).Nodup)
    {i : Nat} (hi : i < ns.length) :
    mapLookup (phase1Map env store ns) ((ns.get ⟨i, hi⟩).tempId)
      = some (store.nextId + i) := by
  have hns : 0 < ns.length := Nat.lt_of_le_of_lt (Nat.zero_le i) hi
  unfold phase1Map
  rw [if_pos hns]
  have hlen : ns.length = (store.insert (ns.map (nonStudentRow env))).2.length := by
    rw [Store.insert_ids]; simp
  have hi2 : i < (store.insert (ns.map (nonStudentRow env))).2.length := hlen ▸ hi
  have hval : (store.insert (ns.map (nonStudentRow env))).2.get ⟨i, hi2⟩
      = store.nextId + i := by
    simp [Store.insert, List.get_eq_getElem]
  rw [buildMap_lookup hlen hnd hi hi2, hval]

theorem mem_jsFilterBoolean {l : List (Option Nat)} {x : Nat} :
    x ∈ jsFilterBoolean l ↔ some x ∈ l ∧ x ≠ 0 := by
  unfold jsFilterBoolean
  rw [List.mem_filterMap]
  constructor
  · rintro ⟨o, ho, heq⟩
    cases o with
    | none => simp at heq
    | some i =>
      dsimp only at heq
      by_cases hi : i = 0
      · rw [if_pos hi] at heq; simp at heq
      · rw [if_neg hi] at heq
        cases heq
        exact ⟨ho, hi⟩
  · rintro ⟨ho, hx⟩
    exact ⟨some x, ho, by dsimp only; rw [if_neg hx]⟩

theorem mem_resolveGuardianIds {m : List (String × Nat)} {s : NewPersonData} {x : Nat}
    (hpos : ∀ t i, mapLookup m t = some i → i ≠ 0) :
    x ∈ resolveGuardianIds m s
      ↔ x ∈ s.guardianIds.getD []
        ∨ ∃ t ∈ s.guardianTempIds.getD [], mapLookup m t = some x := by
  unfold resolveGuardianIds
  rw [mem_jsSetDedup, List.mem_append]
  constructor
  · rintro (hd | hn)
    · exact Or.inl hd
    · rcases mem_jsFilterBoolean.mp hn with ⟨ho, _⟩
      rcases List.mem_map.mp ho with ⟨t, ht, hlook⟩
      exact Or.inr ⟨t, ht, hlook⟩
  · rintro (hd | ⟨t, ht, hlook⟩)
    · exact Or.inl hd
    · refine Or.inr (mem_jsFilterBoolean.mpr ⟨?_, hpos t x hlook⟩)
      exact List.mem_map.mpr ⟨t, ht, hlook⟩

theorem resolveGuardianIds_nodup (m : List (String × Nat)) (s : NewPersonData) :
    (resolveGuardianIds m s).Nodup :=
  jsSetDedup_nodup _

theorem partition_length_sum (b : List NewPersonData) :
    (partitionPayloads b).2.length + (partitionPayloads b).1.length = b.length := by
  rw [partitionPayloads_eq]
  dsimp only
  have hpred : (fun p : NewPersonData => decide (¬(p.category = PersonCategory.STUDENT)))
      = (fun p : NewPersonData => !(decide (p.category = PersonCategory.STUDENT))) := by
    funext p
    simp [decide_not]
  rw [show (b.filter (fun p => ¬(p.category = PersonCategory.STUDENT)))
        = b.filter (fun p => !(decide (p.category = PersonCategory.STUDENT))) from by
      rw [hpred]]
  have htot := @List.length_eq_length_filter_add NewPersonData b
    (fun p => decide (p.category = PersonCategory.STUDENT))
  omega

theorem afterBoth_rows_length (env : Env) (store : Store) (b : List NewPersonData) :
    (afterBoth env store b).rows.length = store.rows.length + b.length := by
  rw [afterBoth_rows]
  have := partition_length_sum b
  simp [insertedRows_length]
  omega

theorem afterBoth_drop (env : Env) (store : Store) (b : List NewPersonData) :
    (afterBoth env store b).rows.drop store.rows.length
      = insertedRows store.nextId ((partitionPayloads b).2.map (nonStudentRow env))
        ++ insertedRows (store.nextId + (partitionPayloads b).2.length)
             ((partitionPayloads b).1.map
               (studentRow env (phase1Map env store (partitionPayloads b).2))) := by
  rw [afterBoth_rows, List.append_assoc, List.drop_left]

theorem postPeople_ne_invalid (env : Env) (store : Store) (b : List NewPersonData)
    (hb : b.length ≠ 0) (st : Store) :
    postPeople env store (ReqBody.arr b) ≠ ImportResult.invalidPayload st := by
  by_cases h1 : env.phase1Fails <;> by_cases hns : 0 < (partitionPayloads b).2.length <;>
    by_cases hss : 0 < (partitionPayloads b).1.length <;> by_cases h2 : env.phase2Fails <;>
    simp [postPeople, hb, h1, hns, hss, h2]

theorem jsFilterBoolean_map_drop {m : List (String × Nat)} {t : String}
    (h : mapLookup m t = none) (temps : List String) :
    jsFilterBoolean (temps.map (mapLookup m))
      = jsFilterBoolean ((temps.filter (fun u => ¬(u = t))).map (mapLookup m)) := by
  induction temps with
  | nil => rfl
  | cons u rest ih =>
    by_cases hu : u = t
    · have hlu : mapLookup m u = none := by rw [hu]; exact h
      simp only [jsFilterBoolean] at ih ⊢
      rw [List.filter_cons_of_neg (by simp [hu]), List.map_cons,
        List.filterMap_cons, hlu]
      exact ih
    · simp only [jsFilterBoolean] at ih ⊢
      rw [List.filter_cons_of_pos (by simp [hu]), List.map_cons, List.map_cons,
        List.filterMap_cons, List.filterMap_cons]
      cases hl : mapLookup m u with
      | none => exact ih
      | some i =>
        dsimp only
        by_cases hi : i = 0
        · rw [if_pos hi]; exact ih
        · rw [if_neg hi, ih]

theorem jsFilterBoolean_eq_filterMap {f : String → Option Nat} {l : List String}
    (hpos : ∀ t i, f t = some i → i ≠ 0) :
    jsFilterBoolean (l.map f) = l.filterMap f := by
  induction l with
  | nil => rfl
  | cons u rest ih =>
    cases hf : f u with
    | none =>
      rw [List.map_cons, jsFilterBoolean, List.filterMap_cons, hf,
        List.filterMap_cons, hf]
      exact ih
    | some i =>
      rw [List.map_cons, jsFilterBoolean, List.filterMap_cons, hf,
        List.filterMap_cons, hf]
      dsimp only
      rw [if_neg (hpos u i hf)]
      rw [jsFilterBoolean] at ih
      rw [ih]

theorem studentRow_no_temps (env : Env) (m m2 : List (String × Nat))
    (s : NewPersonData) (h : s.guardianTempIds.getD [] = []) :
    studentRow env m s = studentRow env m2 s := by
  unfold studentRow resolveGuardianIds
  rw [h]
  rfl

/-! ### Claim theorems -/

/-- C7: a non-array request body, and an empty list body, are rejected as
invalid payload immediately with the store unchanged — and since the result
is the same for every oracle environment, no store insert and no bio or
roster call influences it; for every non-empty list body this rejection
branch is never taken. -/
theorem c7_invalid_payload_rejection (env : Env) (store : Store) :
    postPeople env store ReqBody.notArray = ImportResult.invalidPayload store
    ∧ (∀ b : List NewPersonData, b.length = 0 →
        postPeople env store (ReqBody.arr b) = ImportResult.invalidPayload store)
    ∧ (∀ b : List NewPersonData, b ≠ [] → ∀ st : Store,
        postPeople env store (ReqBody.arr b) ≠ ImportResult.invalidPayload st) := by
  refine ⟨rfl, ?_, ?_⟩
  · intro b hb
    simp [postPeople, hb]
  · intro b hb st
    refine postPeople_ne_invalid env store b ?_ st
    simpa [List.length_eq_zero] using hb

/-- Witness for C7 at concrete inputs: the degraded sample environment, an
empty batch and a one-element batch. -/
theorem c7_witness :
    postPeople sampleEnv sampleStore (ReqBody.arr ([] : List NewPersonData))
      = ImportResult.invalidPayload sampleStore
    ∧ postPeople sampleEnv sampleStore (ReqBody.arr [sampleGuardian])
        ≠ ImportResult.invalidPayload sampleStore :=
  ⟨(c7_invalid_payload_rejection sampleEnv sampleStore).2.1 [] rfl,
   (c7_invalid_payload_rejection sampleEnv sampleStore).2.2 [sampleGuardian]
     (by decide) sampleStore⟩

/-- C2: the input is partitioned into the student and the guardian-capable
submissions by order-preserving filtering (each partition is the input's
order-preserving sublist of its category test), and — for any ids list of
the right length, i.e. assuming the store returns one id per inserted row in
submission order — the tempId map built by positional correspondence sends
the i-th guardian-capable submission's tempId to the i-th returned id
(tempIds being unique within the batch, as the data model requires). -/
theorem c2_partition_and_positional_map (b ns : List NewPersonData)
    (ids : List Nat) (hlen : ns.length = ids.length)
    (hnd : (ns.map (fun p => p.tempId)).Nodup)
    (i : Nat) (hi : i < ns.length) (hi2 : i < ids.length) :
    partitionPayloads b
      = (b.filter (fun p => p.category = PersonCategory.STUDENT),
         b.filter (fun p => ¬(p.category = PersonCategory.STUDENT)))
    ∧ mapLookup (buildMap ns ids) ((ns.get ⟨i, hi⟩).tempId)
        = some (ids.get ⟨i, hi2⟩) :=
  ⟨partitionPayloads_eq b, buildMap_lookup hlen hnd hi hi2⟩

/-- Witness for C2: a mixed three-submission batch, and the positional map
for the two guardian-capable submissions with ids 5 and 9 returned. -/
theorem c2_witness :
    partitionPayloads [sampleGuardian, sampleStudent, sampleGuardian2]
      = ([sampleStudent], [sampleGuardian, sampleGuardian2])
    ∧ mapLookup (buildMap [sampleGuardian, sampleGuardian2] [5, 9])
        ((List.get [sampleGuardian, sampleGuardian2] ⟨1, by decide⟩).tempId)
        = some 9 := by
  have h := c2_partition_and_positional_map
    [sampleGuardian, sampleStudent, sampleGuardian2]
    [sampleGuardian, sampleGuardian2] [5, 9] (by decide) (by decide)
    1 (by decide) (by decide)
  refine ⟨?_, ?_⟩
  · rw [h.1]; decide
  · have h2 := h.2
    rw [show List.get [sampleGuardian, sampleGuardian2] ⟨1, by decide⟩
        = sampleGuardian2 from rfl] at h2 ⊢
    exact h2

/-- C3: an unresolvable guardianTempId is harmless — resolution gives the
same result as if every occurrence of the dangling tempId had been removed
from the submission (so the reference is silently excluded and the rest of
the submission is processed normally), every resolved id comes from the
direct ids or a resolvable tempId, and the importer call itself still
succeeds (it can only fail through a store error, never through a dangling
reference). -/
theorem c3_dangling_tempid_harmless (m : List (String × Nat)) (s : NewPersonData)
    (t : String) (h : mapLookup m t = none) :
    resolveGuardianIds m s
      = resolveGuardianIds m
          { s with
              guardianTempIds := some ((s.guardianTempIds.getD []).filter
                (fun u => ¬(u = t))) }
    ∧ (∀ x ∈ resolveGuardianIds m s,
        x ∈ s.guardianIds.getD []
        ∨ ∃ u ∈ s.guardianTempIds.getD [], mapLookup m u = some x)
    ∧ (∀ (env : Env) (store : Store) (b : List NewPersonData),
        env.phase1Fails = false → env.phase2Fails = false → b.length ≠ 0 →
        ∃ st, postPeople env store (ReqBody.arr b) = ImportResult.success st) := by
  refine ⟨?_, ?_, ?_⟩
  · unfold resolveGuardianIds
    dsimp only
    simp only [Option.getD_some]
    rw [← jsFilterBoolean_map_drop h]
  · intro x hx
    unfold resolveGuardianIds at hx
    rw [mem_jsSetDedup, List.mem_append] at hx
    rcases hx with hd | hn
    · exact Or.inl hd
    · rcases mem_jsFilterBoolean.mp hn with ⟨ho, _⟩
      rcases List.mem_map.mp ho with ⟨u, hu, hlook⟩
      exact Or.inr ⟨u, hu, hlook⟩
  · intro env store b h1 h2 hb
    exact ⟨afterBoth env store b, postPeople_eq_success env store b h1 h2 hb⟩

/-- Witness for C3: the student references tempIds a and b but only a is
mapped; resolution equals resolution with b removed, and a batch call in
the degraded sample environment succeeds. -/
theorem c3_witness :
    resolveGuardianIds [("a", 1)] sampleStudent
      = resolveGuardianIds [("a", 1)]
          { sampleStudent with
              guardianTempIds := some ((sampleStudent.guardianTempIds.getD []).filter
                (fun u => ¬(u = "b"))) }
    ∧ resolveGuardianIds [("a", 1)] sampleStudent = [1]
    ∧ ∃ st, postPeople sampleEnv sampleStore (ReqBody.arr [sampleGuardian])
        = ImportResult.success st :=
  ⟨(c3_dangling_tempid_harmless [("a", 1)] sampleStudent "b" (by decide)).1,
   by decide,
   (c3_dangling_tempid_harmless [("a", 1)] sampleStudent "b" (by decide)).2.2
     sampleEnv sampleStore [sampleGuardian] rfl rfl (by decide)⟩

/-- C9: the resolved guardianIds list has the deterministic first-occurrence
order fixed by the input — the direct guardianIds in submitted order,
followed by the ids resolved from guardianTempIds in guardianTempIds order,
deduplicated keeping only the first occurrence (library `List.eraseDups`) —
provided the mapped ids are nonzero, as store-assigned ids are. -/
theorem c9_resolution_order (m : List (String × Nat)) (s : NewPersonData)
    (hpos : ∀ t i, mapLookup m t = some i → i ≠ 0) :
    resolveGuardianIds m s
      = (s.guardianIds.getD []
          ++ (s.guardianTempIds.getD []).filterMap (mapLookup m)).eraseDups := by
  unfold resolveGuardianIds
  rw [jsFilterBoolean_eq_filterMap hpos, jsSetDedup_eq_eraseDups]

/-- Witness for C9: direct ids [7, 1] then temp ids a ↦ 1, b ↦ 2 resolve to
[7, 1, 2]: input order, with the duplicate 1 keeping its first position. -/
theorem c9_witness :
    resolveGuardianIds [("a", 1), ("b", 2)]
      { tempId := "s", category := "Student", firstName := "L", lastName := "C",
        image := "i", guardianIds := some [7, 1],
        guardianTempIds := some ["a", "b"] }
      = [7, 1, 2] := by
  have h := c9_resolution_order [("a", 1), ("b", 2)]
    { tempId := "s", category := "Student", firstName := "L", lastName := "C",
      image := "i", guardianIds := some [7, 1],
      guardianTempIds := some ["a", "b"] }
    (by
      intro t i h
      have hm := mapLookup_mem h
      rcases List.mem_cons.mp hm with he | hm2
      · cases he; decide
      · rcases List.mem_cons.mp hm2 with he | hm3
        · cases he; decide
        · cases hm3)
  rw [h]
  decide

/-- C10: the category partition is exhaustive and unvalidated — every
submission whose category string is not exactly the Student value (unknown
or malformed values included) lands in the guardian-capable partition; its
tempId is mapped to its phase-1 store-assigned id; a student that lists that
tempId picks the assigned id up in its resolved guardianIds; the submission
is persisted in phase 1 with its category string stored verbatim; and no
batch is ever rejected over a category value (with working stores every
non-empty batch succeeds). -/
theorem c10_unvalidated_category_partition (b : List NewPersonData) :
    (partitionPayloads b).2
      = b.filter (fun p => ¬(p.category = PersonCategory.STUDENT))
    ∧ (∀ (env : Env) (store : Store) (ns : List NewPersonData)
        (i : Nat) (hi : i < ns.length),
        (ns.map (fun p => p.tempId)).Nodup →
        mapLookup (phase1Map env store ns) ((ns.get ⟨i, hi⟩).tempId)
          = some (store.nextId + i))
    ∧ (∀ (env : Env) (store : Store) (ns : List NewPersonData)
        (i : Nat) (hi : i < ns.length) (s : NewPersonData),
        0 < store.nextId →
        (ns.map (fun p => p.tempId)).Nodup →
        (ns.get ⟨i, hi⟩).tempId ∈ s.guardianTempIds.getD [] →
        store.nextId + i ∈ resolveGuardianIds (phase1Map env store ns) s)
    ∧ (∀ (env : Env) (store : Store) (ns : List NewPersonData)
        (i : Nat) (hi : i < ns.length),
        ((phase1Store env store ns).rows.drop store.rows.length)[i]?
          = some (toRow (nonStudentRow env (ns.get ⟨i, hi⟩)) (store.nextId + i)))
    ∧ (∀ (env : Env) (store : Store) (b2 : List NewPersonData),
        env.phase1Fails = false → env.phase2Fails = false → b2.length ≠ 0 →
        ∃ st, postPeople env store (ReqBody.arr b2) = ImportResult.success st) := by
  refine ⟨?_, ?_, ?_, ?_, ?_⟩
  · rw [partitionPayloads_eq]
  · intro env store ns i hi hnd
    exact phase1Map_lookup_at env store ns hnd hi
  · intro env store ns i hi s hnext hnd hmem
    refine (mem_resolveGuardianIds
      (fun t j hl => phase1Map_lookup_pos hnext hl)).mpr ?_
    exact Or.inr ⟨(ns.get ⟨i, hi⟩).tempId, hmem, phase1Map_lookup_at env store ns hnd hi⟩
  · intro env store ns i hi
    have hns : 0 < ns.length := Nat.lt_of_le_of_lt (Nat.zero_le i) hi
    unfold phase1Store
    rw [if_pos hns, Store.insert_rows, List.drop_left, insertedRows_getElem?]
    have hmi : i < (ns.map (nonStudentRow env)).length := by
      rw [List.length_map]; exact hi
    rw [List.getElem?_eq_getElem hmi]
    simp [List.get_eq_getElem]
  · intro env store b2 h1 h2 hb
    exact ⟨afterBoth env store b2, postPeople_eq_success env store b2 h1 h2 hb⟩

/-- Witness for C10: the category string Wizard is not Student, so the
submission is guardian-capable, gets id 1, and a student referencing its
tempId z resolves 1 into its guardian set. -/
theorem c10_witness :
    (partitionPayloads [oddCategory, sampleStudent]).2 = [oddCategory]
    ∧ mapLookup (phase1Map sampleEnv sampleStore [oddCategory])
        ((List.get [oddCategory] ⟨0, by decide⟩).tempId) = some 1
    ∧ 1 ∈ resolveGuardianIds (phase1Map sampleEnv sampleStore [oddCategory])
        { sampleStudent with guardianTempIds := some ["z"] } := by
  have h := c10_unvalidated_category_partition [oddCategory, sampleStudent]
  refine ⟨?_, ?_, ?_⟩
  · rw [h.1]; decide
  · exact h.2.1 sampleEnv sampleStore [oddCategory] 0 (by decide) (by decide)
  · have h3 := h.2.2.1 sampleEnv sampleStore [oddCategory] 0 (by decide)
      { sampleStudent with guardianTempIds := some ["z"] }
      (by decide) (by decide) (by decide)
    simpa using h3

/-- C1: for a batch call with working stores and positive store ids, the row
persisted for the j-th student submission is exactly the phase-2 insert
object for that submission with the expected assigned id, and its stored
guardianIds is a duplicate-free list whose members are precisely the union
of the submission's direct guardianIds and the store-assigned ids resolved
from its guardianTempIds through the phase-1 tempId map (the claim's
hypothesis that every guardianTempId references a guardian-capable
submission of the batch is carried along). -/
theorem c1_persisted_guardian_union (env : Env) (store : Store) (b : List NewPersonData)
    (h1 : env.phase1Fails = false) (h2 : env.phase2Fails = false)
    (hnext : 0 < store.nextId)
    (j : Nat) (hj : j < (partitionPayloads b).1.length)
    (_href : ∀ t ∈ ((partitionPayloads b).1.get ⟨j, hj⟩).guardianTempIds.getD [],
        ∃ i, mapLookup (phase1Map env store (partitionPayloads b).2) t = some i) :
    ∃ st row,
      postPeople env store (ReqBody.arr b) = ImportResult.success st
      ∧ st.rows[store.rows.length + (partitionPayloads b).2.length + j]? = some row
      ∧ row.eraseId
          = studentRow env (phase1Map env store (partitionPayloads b).2)
              ((partitionPayloads b).1.get ⟨j, hj⟩)
      ∧ ∃ L, row.guardianIds = some L ∧ L.Nodup
          ∧ ∀ x, x ∈ L
              ↔ x ∈ ((partitionPayloads b).1.get ⟨j, hj⟩).guardianIds.getD []
                ∨ ∃ t ∈ ((partitionPayloads b).1.get ⟨j, hj⟩).guardianTempIds.getD [],
                    mapLookup (phase1Map env store (partitionPayloads b).2) t
                      = some x := by
  have hb : b.length ≠ 0 := by
    intro h0
    rw [List.length_eq_zero] at h0
    subst h0
    simp [partitionPayloads] at hj
  refine ⟨afterBoth env store b,
    toRow (studentRow env (phase1Map env store (partitionPayloads b).2)
        ((partitionPayloads b).1.get ⟨j, hj⟩))
      (store.nextId + (partitionPayloads b).2.length + j),
    postPeople_eq_success env store b h1 h2 hb, ?_, rfl, ?_⟩
  · have hAlen : (store.rows
        ++ insertedRows store.nextId
            ((partitionPayloads b).2.map (nonStudentRow env))).length
        = store.rows.length + (partitionPayloads b).2.length := by
      rw [List.length_append, insertedRows_length, List.length_map]
    rw [afterBoth_rows]
    rw [List.getElem?_append_right (by omega)]
    rw [hAlen]
    have hsub : store.rows.length + (partitionPayloads b).2.length + j
        - (store.rows.length + (partitionPayloads b).2.length) = j := by omega
    rw [hsub, insertedRows_getElem?]
    have hmj : j < ((partitionPayloads b).1.map
        (studentRow env (phase1Map env store (partitionPayloads b).2))).length := by
      rw [List.length_map]; exact hj
    rw [List.getElem?_eq_getElem hmj]
    simp [List.get_eq_getElem]
  · refine ⟨resolveGuardianIds (phase1Map env store (partitionPayloads b).2)
        ((partitionPayloads b).1.get ⟨j, hj⟩), rfl,
      resolveGuardianIds_nodup _ _, ?_⟩
    intro x
    exact mem_resolveGuardianIds (fun t i hl => phase1Map_lookup_pos hnext hl)

/-- Witness for C1: two guardians then one student referencing both by
tempId; the persisted student row's guardianIds contains exactly the two
assigned ids 1 and 2 and is duplicate-free. -/
theorem c1_witness :
    ∃ st row,
      postPeople sampleEnv sampleStore
          (ReqBody.arr [sampleGuardian, sampleGuardian2, sampleStudent])
        = ImportResult.success st
      ∧ st.rows[sampleStore.rows.length
          + (partitionPayloads [sampleGuardian, sampleGuardian2, sampleStudent]).2.length
          + 0]? = some row
      ∧ ∃ L, row.guardianIds = some L ∧ L.Nodup ∧ 1 ∈ L ∧ 2 ∈ L := by
  have hj : 0 < (partitionPayloads [sampleGuardian, sampleGuardian2, sampleStudent]).1.length := by
    decide
  have hget : (partitionPayloads [sampleGuardian, sampleGuardian2, sampleStudent]).1.get
      ⟨0, hj⟩ = sampleStudent := rfl
  obtain ⟨st, row, hsucc, hrow, _herase, L, hL, hnd, hiff⟩ :=
    c1_persisted_guardian_union sampleEnv sampleStore
      [sampleGuardian, sampleGuardian2, sampleStudent] rfl rfl (by decide) 0 hj
      (by
        intro t ht
        rw [hget] at ht
        have ht2 : t = "a" ∨ t = "b" := by
          simpa [sampleStudent] using ht
        rcases ht2 with h | h <;> subst h
        · exact ⟨1, by decide⟩
        · exact ⟨2, by decide⟩)
  refine ⟨st, row, hsucc, hrow, L, hL, hnd, ?_, ?_⟩
  · refine (hiff 1).mpr (Or.inr ⟨"a", ?_, ?_⟩)
    · rw [hget]; decide
    · decide
  · refine (hiff 2).mpr (Or.inr ⟨"b", ?_, ?_⟩)
    · rw [hget]; decide
    · decide

theorem trim_empty : "".trim = "" := by
  show ("".toSubstring.trim).toString = ""
  rw [Substring.trim]
  rw [Substring.takeWhileAux]
  simp [String.toSubstring]
  rw [Substring.takeRightWhileAux]
  simp
  rfl

/-- C4: with a non-empty batch, a failing phase-1 insert (on a batch that
has guardian-capable submissions) makes the whole call fail with the store
unchanged, and a failing phase-2 insert after a successful phase 1 (on a
batch that has students) makes the whole call fail while the phase-1 rows
already inserted remain in the resulting store — no compensating rollback. -/
theorem c4_store_failure_semantics (env : Env) (store : Store)
    (b : List NewPersonData) (hb : b.length ≠ 0) :
    (env.phase1Fails = true → 0 < (partitionPayloads b).2.length →
      postPeople env store (ReqBody.arr b) = ImportResult.failure store)
    ∧ (env.phase1Fails = false → env.phase2Fails = true →
        0 < (partitionPayloads b).1.length →
        ∃ st1, postPeople env store (ReqBody.arr b) = ImportResult.failure st1
          ∧ st1.rows = store.rows
              ++ insertedRows store.nextId
                  ((partitionPayloads b).2.map (nonStudentRow env))) := by
  constructor
  · intro h1 hns
    simp [postPeople, hb, hns, h1]
  · intro h1 h2 hss
    by_cases hns : 0 < (partitionPayloads b).2.length
    · refine ⟨(store.insert ((partitionPayloads b).2.map (nonStudentRow env))).1,
        ?_, Store.insert_rows _ _⟩
      simp [postPeople, hb, hns, hss, h1, h2]
    · refine ⟨store, ?_, ?_⟩
      · simp [postPeople, hb, hns, hss, h1, h2]
      · have hempty : (partitionPayloads b).2 = [] := by
          rw [← List.length_eq_zero]; omega
        rw [hempty]
        simp [insertedRows]

/-- Witness for C4: a mixed guardian-and-student batch against an
environment whose phase-1 insert fails (the store stays empty), and one
whose phase-2 insert fails (the guardian row remains inserted). -/
theorem c4_witness :
    postPeople sampleEnvP1Fail sampleStore
        (ReqBody.arr [sampleGuardian, sampleStudent])
      = ImportResult.failure sampleStore
    ∧ ∃ st1, postPeople sampleEnvP2Fail sampleStore
          (ReqBody.arr [sampleGuardian, sampleStudent])
        = ImportResult.failure st1
        ∧ st1.rows = sampleStore.rows
            ++ insertedRows sampleStore.nextId
                ((partitionPayloads [sampleGuardian, sampleStudent]).2.map
                  (nonStudentRow sampleEnvP2Fail)) :=
  ⟨(c4_store_failure_semantics sampleEnvP1Fail sampleStore
      [sampleGuardian, sampleStudent] (by decide)).1 rfl (by decide),
   (c4_store_failure_semantics sampleEnvP2Fail sampleStore
      [sampleGuardian, sampleStudent] (by decide)).2 rfl rfl (by decide)⟩

/-- Counterexample for C5, as stated: the claim covers both cited
implementations, but the worker bio helper (`src/worker/index.ts`) returns
the generator's trimmed text verbatim, so an empty generator result is
persisted as the empty-string bio (the worker binds the helper's return
directly into its INSERT), not as the fallback string. -/
theorem c5_counterexample :
    generateBioWorker (some "") = "" ∧ ¬("" = fallbackBio) := by
  constructor
  · show "".trim = ""
    exact trim_empty
  · decide

/-- C5 (amended): the fallback-on-failure behavior holds as claimed in the
api implementation — a thrown or timed-out call, and a returned text that is
empty after trimming, both yield the fixed fallback bio, a non-empty
trimmed text is used as is, and with an always-failing generator every row
persisted by a successful batch call has its bio equal to the fallback, the
failure never propagating — while the worker implementation substitutes the
fallback only when the call throws, persisting an empty returned text
verbatim. -/
theorem c5_bio_fallback_amended (t : String) (env : Env) (store : Store)
    (b : List NewPersonData) (hbio : ∀ p, env.bioResult p = none)
    (h1 : env.phase1Fails = false) (h2 : env.phase2Fails = false)
    (hb : b.length ≠ 0) :
    generateBio none = fallbackBio
    ∧ (t.trim = "" → generateBio (some t) = fallbackBio)
    ∧ (¬(t.trim = "") → generateBio (some t) = t.trim)
    ∧ generateBioWorker none = fallbackBio
    ∧ ∃ st, postPeople env store (ReqBody.arr b) = ImportResult.success st
        ∧ ∀ r ∈ st.rows.drop store.rows.length, r.bio = fallbackBio := by
  refine ⟨rfl, ?_, ?_, rfl, ?_⟩
  · intro h; simp [generateBio, h]
  · intro h; simp [generateBio, h]
  · refine ⟨afterBoth env store b, postPeople_eq_success env store b h1 h2 hb, ?_⟩
    intro r hr
    rw [afterBoth_drop] at hr
    rcases List.mem_append.mp hr with hA | hB
    · rcases List.mem_map.mp (mem_insertedRows hA).2.2 with ⟨p, _, hp⟩
      calc r.bio = r.eraseId.bio := rfl
        _ = (nonStudentRow env p).bio := by rw [hp]
        _ = generateBio (env.bioResult p) := rfl
        _ = fallbackBio := by rw [hbio p]; rfl
    · rcases List.mem_map.mp (mem_insertedRows hB).2.2 with ⟨p, _, hp⟩
      calc r.bio = r.eraseId.bio := rfl
        _ = (studentRow env
              (phase1Map env store (partitionPayloads b).2) p).bio := by rw [hp]
        _ = generateBio (env.bioResult p) := rfl
        _ = fallbackBio := by rw [hbio p]; rfl

/-- Witness for C5 (amended): in the sample environment the bio call always
fails, the batch call still succeeds, and both persisted rows carry the
fallback bio. -/
theorem c5_witness :
    generateBio none = fallbackBio
    ∧ generateBioWorker none = fallbackBio
    ∧ ∃ st, postPeople sampleEnv sampleStore
          (ReqBody.arr [sampleGuardian, sampleStudent])
        = ImportResult.success st
        ∧ ∀ r ∈ st.rows.drop sampleStore.rows.length, r.bio = fallbackBio := by
  have h := c5_bio_fallback_amended "x" sampleEnv sampleStore
    [sampleGuardian, sampleStudent] (fun p => rfl) rfl rfl (by decide)
  exact ⟨h.1, h.2.2.2.1, h.2.2.2.2⟩

/-- C6: for every random draw r in [0, 1), the synthesized number
floor(10000 + r * 90000) lies in [10000, 99999] and so has exactly five
decimal digits, the synthesized token is the GS- string followed by those
digits, a found roster lookup result is used verbatim, and a lookup error
is handled identically to a clean not-found (both fall back to the
synthesized token). -/
theorem c6_roster_token_format (r : ℚ) (hr0 : 0 ≤ r) (hr1 : r < 1)
    (found : String) :
    10000 ≤ gsNum r
    ∧ gsNum r ≤ 99999
    ∧ (Nat.digits 10 (gsNum r)).length = 5
    ∧ synthRosterId r = "GS-" ++ Nat.repr (gsNum r)
    ∧ studentSheetId (Except.ok (some found)) r = found
    ∧ studentSheetId (Except.ok none) r = synthRosterId r
    ∧ studentSheetId (Except.error ()) r = studentSheetId (Except.ok none) r := by
  have hfl : (10000 : ℤ) ≤ Int.floor ((10000 : ℚ) + r * 90000) := by
    rw [Int.le_floor]
    push_cast
    nlinarith
  have hfu : Int.floor ((10000 : ℚ) + r * 90000) < 100000 := by
    rw [Int.floor_lt]
    push_cast
    nlinarith
  have h1 : 10000 ≤ gsNum r := by unfold gsNum; omega
  have h2 : gsNum r ≤ 99999 := by unfold gsNum; omega
  refine ⟨h1, h2, ?_, rfl, rfl, rfl, rfl⟩
  have hlog : Nat.log 10 (gsNum r) = 4 := by
    apply Nat.log_eq_of_pow_le_of_lt_pow
    · simpa using h1
    · have h3 : gsNum r < 100000 := by omega
      simpa using h3
  rw [Nat.digits_len 10 (gsNum r) (by norm_num) (by omega), hlog]

/-- Witness for C6 at the concrete draw one half: the synthesized number is
in range with five digits, a found identifier passes through verbatim, and
the thrown-lookup case agrees with the not-found case. -/
theorem c6_witness :
    10000 ≤ gsNum (1/2)
    ∧ gsNum (1/2) ≤ 99999
    ∧ (Nat.digits 10 (gsNum (1/2))).length = 5
    ∧ studentSheetId (Except.ok (some "R7")) (1/2) = "R7"
    ∧ studentSheetId (Except.error ()) (1/2)
        = studentSheetId (Except.ok none) (1/2) := by
  have h := c6_roster_token_format (1/2) (by norm_num) (by norm_num) "R7"
  exact ⟨h.1, h.2.1, h.2.2.1, h.2.2.2.2.1, h.2.2.2.2.2.2⟩

/-- Counterexample for C8, as stated: resubmitting the identical batch does
insert a second, disjoint set of rows with fresh ids, but the new rows do
not all have the same field values — the student row of the second run has
guardianIds [3] (the second run's fresh guardian id) where the first run
persisted [1], because guardianTempIds are re-resolved against the second
run's tempId map. -/
theorem c8_counterexample :
    postPeople sampleEnv sampleStore
        (ReqBody.arr [sampleGuardian, sampleStudentOneRef])
      = ImportResult.success resubmitStore1
    ∧ postPeople sampleEnv resubmitStore1
        (ReqBody.arr [sampleGuardian, sampleStudentOneRef])
      = ImportResult.success resubmitStore2
    ∧ resubmitStore1.rows.map (fun row => (row.id, row.guardianIds))
        = [(1, none), (2, some [1])]
    ∧ resubmitStore2.rows.map (fun row => (row.id, row.guardianIds))
        = [(1, none), (2, some [1]), (3, none), (4, some [3])]
    ∧ ¬((resubmitStore2.rows.drop 2).map (fun row => row.guardianIds)
        = resubmitStore1.rows.map (fun row => row.guardianIds)) := by
  refine ⟨postPeople_eq_success sampleEnv sampleStore _ rfl rfl (by decide),
    postPeople_eq_success sampleEnv resubmitStore1 _ rfl rfl (by decide),
    ?_, ?_, ?_⟩
  · decide
  · decide
  · decide

/-- C8 (amended): batch import is not idempotent — with working stores, a
second submission of the identical batch after a successful first one
succeeds again and appends a second batch-sized block of rows whose ids are
fresh (disjoint from every row of the first result); when the batch uses no
same-batch guardianTempIds references the appended rows repeat the first
run's column values exactly (ids aside), while rows resolved from
guardianTempIds reference the second run's fresh guardian ids instead, as
the counterexample shows. -/
theorem c8_not_idempotent_amended (env : Env) (store : Store)
    (b : List NewPersonData)
    (h1 : env.phase1Fails = false) (h2 : env.phase2Fails = false)
    (hb : b.length ≠ 0) (hwf : store.WF) :
    ∃ st1 st2,
      postPeople env store (ReqBody.arr b) = ImportResult.success st1
      ∧ postPeople env st1 (ReqBody.arr b) = ImportResult.success st2
      ∧ st1.rows.length = store.rows.length + b.length
      ∧ st2.rows.length = st1.rows.length + b.length
      ∧ store.rows <+: st1.rows
      ∧ st1.rows <+: st2.rows
      ∧ (∀ r ∈ st2.rows.drop st1.rows.length, ∀ r2 ∈ st1.rows, r.id ≠ r2.id)
      ∧ ((∀ p ∈ b, p.guardianTempIds.getD [] = []) →
          (st2.rows.drop st1.rows.length).map PersonRow.eraseId
            = (st1.rows.drop store.rows.length).map PersonRow.eraseId) := by
  refine ⟨afterBoth env store b, afterBoth env (afterBoth env store b) b,
    postPeople_eq_success env store b h1 h2 hb,
    postPeople_eq_success env (afterBoth env store b) b h1 h2 hb,
    afterBoth_rows_length env store b, afterBoth_rows_length env _ b,
    ?_, ?_, ?_, ?_⟩
  · exact ⟨_, by rw [afterBoth_rows env store b, List.append_assoc]⟩
  · exact ⟨_, by rw [afterBoth_rows env (afterBoth env store b) b, List.append_assoc]⟩
  · intro r hr r2 hr2
    rw [afterBoth_drop] at hr
    have hwf1 : (afterBoth env store b).WF := afterBoth_WF env store b hwf
    have hlt : r2.id < (afterBoth env store b).nextId := hwf1 r2 hr2
    rcases List.mem_append.mp hr with hA | hB
    · have := (mem_insertedRows hA).1
      omega
    · have := (mem_insertedRows hB).1
      omega
  · intro hnotemps
    rw [afterBoth_drop, afterBoth_drop, List.map_append, List.map_append,
      insertedRows_map_eraseId, insertedRows_map_eraseId,
      insertedRows_map_eraseId, insertedRows_map_eraseId]
    have hstu : (partitionPayloads b).1.map
        (studentRow env (phase1Map env (afterBoth env store b) (partitionPayloads b).2))
        = (partitionPayloads b).1.map
            (studentRow env (phase1Map env store (partitionPayloads b).2)) := by
      apply List.map_congr_left
      intro s hs
      have hsb : s ∈ b := by
        rw [partitionPayloads_eq] at hs
        exact (List.mem_filter.mp hs).1
      exact studentRow_no_temps env _ _ s (hnotemps s hsb)
    rw [hstu]

/-- Witness for C8 (amended): a single-guardian batch with no temp-id
references; resubmission appends one fresh-id row with identical column
values. -/
theorem c8_witness :
    ∃ st1 st2,
      postPeople sampleEnv sampleStore (ReqBody.arr [sampleGuardian])
        = ImportResult.success st1
      ∧ postPeople sampleEnv st1 (ReqBody.arr [sampleGuardian])
        = ImportResult.success st2
      ∧ st1.rows.length = sampleStore.rows.length + 1
      ∧ st2.rows.length = st1.rows.length + 1
      ∧ (∀ r ∈ st2.rows.drop st1.rows.length, ∀ r2 ∈ st1.rows, r.id ≠ r2.id)
      ∧ (st2.rows.drop st1.rows.length).map PersonRow.eraseId
          = (st1.rows.drop sampleStore.rows.length).map PersonRow.eraseId := by
  obtain ⟨st1, st2, hs1, hs2, hl1, hl2, _, _, hfresh, hsame⟩ :=
    c8_not_idempotent_amended sampleEnv sampleStore [sampleGuardian]
      rfl rfl (by decide) (by intro r hr; cases hr)
  exact ⟨st1, st2, hs1, hs2, hl1, hl2, hfresh, hsame (by intro p hp; cases hp with
    | head => rfl
    | tail _ h => cases h)⟩

end IdDatabase
